import Mathlib

/-!
Verification of the pi-minimax-mcp repository against its specification.

The development shallowly embeds the two components the claims are about:

* `src/utils.ts` — the output Formatter (`formatToolOutput`, `truncateHead`,
  `formatBytes`) that truncates tool-result text to byte/line budgets;
* `src/client.ts` — the `MiniMaxMcpClient` Session: a subprocess-backed
  JSON-RPC request/response state machine with id correlation, timeouts,
  connect/disconnect lifecycle and error handling.

JavaScript strings are modelled as lists of UTF-16 code units (`JStr`,
restricted to code points below 0x10000, which covers every string the
claims exercise); bytes are modelled as `List Nat` with an explicit UTF-8
encoder and a WHATWG-style decoder standing in for `Buffer.from` /
`Buffer.prototype.toString("utf-8")`.  Effects (temp-file paths, the spawned
process, promise settlement) are made explicit: the formatter receives the
temp-file path produced by `writeTempFile` as a parameter, and the client is
a state machine whose promise settlements are recorded in an explicit list
(`settleOnce` models the fact that a JS promise settles at most once).
-/

namespace Mcp

/-- A JavaScript string: a list of UTF-16 code units (each below 0x10000 in
this model; astral characters and lone surrogates are outside its scope). -/
abbrev JStr := List Nat

/-- Convert a Lean string literal to its `JStr` model (one code unit per
character; all literals used here are in the Basic Multilingual Plane). -/
def jstr (s : String) : JStr := s.data.map Char.toNat

/-- Number of UTF-8 bytes of one BMP code unit, as `Buffer.byteLength`
counts them. -/
def utf8Width (c : Nat) : Nat :=
  if c < 0x80 then 1 else if c < 0x800 then 2 else 3

/-- Model of `Buffer.byteLength(s, "utf-8")`. -/
def byteLength (s : JStr) : Nat := (s.map utf8Width).sum

/-- UTF-8 encoding of one BMP code unit. -/
def utf8Encode1 (c : Nat) : List Nat :=
  if c < 0x80 then [c]
  else if c < 0x800 then [0xC0 + c / 64, 0x80 + c % 64]
  else [0xE0 + c / 4096, 0x80 + (c / 64) % 64, 0x80 + c % 64]

/-- Model of `Buffer.from(s, "utf-8")`: the UTF-8 byte sequence of `s`. -/
def utf8Encode (s : JStr) : List Nat := s.flatMap utf8Encode1

/-- Model of `Buffer.prototype.toString("utf-8")`: WHATWG-style decoding in
which every invalid or truncated byte sequence yields a U+FFFD replacement
character.  Only sequences up to three bytes are decoded (the encoder above
never produces four-byte sequences). -/
def utf8Decode : List Nat → JStr
  | [] => []
  | b :: rest =>
    if b < 0x80 then b :: utf8Decode rest
    else if 0xC0 ≤ b ∧ b < 0xE0 then
      match rest with
      | [] => [0xFFFD]
      | b2 :: rest2 =>
        if 0x80 ≤ b2 ∧ b2 < 0xC0 then ((b - 0xC0) * 64 + (b2 - 0x80)) :: utf8Decode rest2
        else 0xFFFD :: utf8Decode (b2 :: rest2)
    else if 0xE0 ≤ b ∧ b < 0xF0 then
      match rest with
      | [] => [0xFFFD]
      | b2 :: rest2 =>
        if 0x80 ≤ b2 ∧ b2 < 0xC0 then
          match rest2 with
          | [] => [0xFFFD]
          | b3 :: rest3 =>
            if 0x80 ≤ b3 ∧ b3 < 0xC0 then
              ((b - 0xE0) * 4096 + (b2 - 0x80) * 64 + (b3 - 0x80)) :: utf8Decode rest3
            else 0xFFFD :: utf8Decode (b3 :: rest3)
        else 0xFFFD :: utf8Decode (b2 :: rest2)
    else 0xFFFD :: utf8Decode rest

/-- Model of `String.prototype.split("\n")`: splitting the empty string
yields one empty piece, exactly as in JavaScript. -/
def splitNl : JStr → List JStr
  | [] => [[]]
  | c :: rest =>
    match splitNl rest with
    | [] => [[]]
    | l :: ls => if c = 10 then [] :: l :: ls else (c :: l) :: ls

/-- Model of `slice(-n)` on arrays and buffers: keep the last `n` elements;
`slice(-0)` is `slice(0)`, the whole sequence. -/
def sliceLast (n : Nat) (xs : List α) : List α :=
  if n = 0 then xs else xs.drop (xs.length - n)

/-- Index of the first newline, as `indexOf("\n")` finds it (`none` for -1). -/
def idxOfNl : JStr → Option Nat
  | [] => none
  | c :: rest => if c = 10 then some 0 else (idxOfNl rest).map (· + 1)

/-! ### JSON.stringify model

`formatToolOutput` falls back to `JSON.stringify(result, null, 2)` when the
joined text is empty.  The model renders the two fields of `McpToolResult`
that the embedding carries (`content`, `isError`), in insertion order, with
two-space indentation, omitting absent optional fields — as
`JSON.stringify` does for the corresponding objects. -/

/-- One content block of a tool result (`{ type: string; text?: string }`).
Extra untyped keys of the TS interface are outside the model. -/
structure ContentBlock where
  type : JStr
  text : Option JStr := none
  deriving DecidableEq, Repr

/-- Model of the `McpToolResult` interface from src/types.ts. -/
structure McpToolResult where
  content : Option (List ContentBlock) := none
  isError : Option Bool := none
  deriving DecidableEq, Repr

/-- Lower-case hexadecimal digit, as used in JSON `\u00..` escapes. -/
def hexDigit (n : Nat) : Nat := if n < 10 then 48 + n else 87 + n

/-- JSON escaping of one code unit, as `JSON.stringify` escapes string
contents. -/
def jsonEscape1 (c : Nat) : JStr :=
  if c = 34 then [92, 34]
  else if c = 92 then [92, 92]
  else if c = 8 then [92, 98]
  else if c = 9 then [92, 116]
  else if c = 10 then [92, 110]
  else if c = 12 then [92, 102]
  else if c = 13 then [92, 114]
  else if c < 32 then [92, 117, 48, 48, hexDigit (c / 16), hexDigit (c % 16)]
  else [c]

/-- A JSON string literal: quoted and escaped. -/
def jsonStr (s : JStr) : JStr := [34] ++ s.flatMap jsonEscape1 ++ [34]

/-- Indentation for the pretty printer. -/
def indentN (n : Nat) : JStr := List.replicate n 32

/-- A pretty-printed JSON object whose fields are already rendered, with the
object itself indented by `indent`.  Char codes 123/125 are the braces. -/
def objectOf (indent : Nat) (fields : List JStr) : JStr :=
  if fields = [] then [123, 125]
  else
    [123, 10] ++ List.intercalate [44, 10] (fields.map fun f => indentN (indent + 2) ++ f)
      ++ [10] ++ indentN indent ++ [125]

/-- A pretty-printed JSON array whose items are already rendered. -/
def arrayOf (indent : Nat) (items : List JStr) : JStr :=
  if items = [] then [91, 93]
  else
    [91, 10] ++ List.intercalate [44, 10] (items.map fun it => indentN (indent + 2) ++ it)
      ++ [10] ++ indentN indent ++ [93]

/-- Rendering of one content block. -/
def jsonBlockStr (indent : Nat) (b : ContentBlock) : JStr :=
  objectOf indent
    ([jsonStr (jstr "type") ++ jstr ": " ++ jsonStr b.type] ++
      (match b.text with
       | some t => [jsonStr (jstr "text") ++ jstr ": " ++ jsonStr t]
       | none => []))

/-- Model of `JSON.stringify(result, null, 2)` on a tool result. -/
def jsonStringify (r : McpToolResult) : JStr :=
  objectOf 0
    ((match r.content with
      | some blocks =>
        [jsonStr (jstr "content") ++ jstr ": " ++ arrayOf 2 (blocks.map (jsonBlockStr 4))]
      | none => []) ++
     (match r.isError with
      | some b =>
        [jsonStr (jstr "isError") ++ jstr ": " ++ (if b then jstr "true" else jstr "false")]
      | none => []))

/-! ### The Formatter (src/utils.ts) -/

/-- Model of the `FormatOptions` interface. -/
structure FormatOptions where
  maxBytes : Option Nat := none
  maxLines : Option Nat := none
  deriving DecidableEq, Repr

/-- The `details` record of `FormattedOutput`. -/
structure FormatDetails where
  truncated : Bool
  totalLines : Nat
  totalBytes : Nat
  outputLines : Nat
  outputBytes : Nat
  tempFile : Option JStr
  deriving DecidableEq, Repr

/-- Model of the `FormattedOutput` interface. -/
structure FormattedOutput where
  text : JStr
  details : FormatDetails
  deriving DecidableEq, Repr

/-- Lines 36-38 of src/utils.ts: the texts of the content blocks whose
`type` is `"text"` and whose `text` member is a string. -/
def textBlocksOf (result : McpToolResult) : List JStr :=
  (result.content.getD []).filterMap fun b => if b.type = jstr "text" then b.text else none

/-- The join `textBlocks.join("\n\n")` of line 40. -/
def joinedText (result : McpToolResult) : JStr :=
  List.intercalate (jstr "\n\n") (textBlocksOf result)

/-- Line 40 of src/utils.ts: `textBlocks.join("\n\n") || JSON.stringify(result,
null, 2)` — the empty string is falsy, so an empty join falls back to the
structural dump. -/
def rawTextOf (result : McpToolResult) : JStr :=
  if joinedText result = [] then jsonStringify result else joinedText result

/-- Lines 56-60 of src/utils.ts: keep the trailing `maxBytes` bytes and then
clean up the leading partial line (`truncated.replace(/^[^\n]*\n/, "")`:
drop up to and including the first newline when the text has one). -/
def byteTruncateTail (maxBytes : Nat) (s : JStr) : JStr :=
  let truncated := utf8Decode (sliceLast maxBytes (utf8Encode s))
  if (10 : Nat) ∈ truncated then (truncated.dropWhile fun c => c ≠ 10).drop 1
  else truncated

/-- Lines 46-65 of src/utils.ts: the truncated output text *before* the
truncation-notice suffix is appended.  Note that the line-truncation at
line 64 recomputes from `lines`, the split of the original `rawText`, and
overwrites `outputText` regardless of the preceding byte-truncation. -/
def formatContentText (maxBytes maxLines : Nat) (rawText : JStr) : JStr :=
  let lines := splitNl rawText
  let totalLines := lines.length
  let totalBytes := byteLength rawText
  let truncateByLines := totalLines > maxLines
  let truncateByBytes := totalBytes > maxBytes
  if truncateByLines ∨ truncateByBytes then
    let afterBytes :=
      if truncateByBytes ∧ totalBytes > maxBytes then byteTruncateTail maxBytes rawText
      else rawText
    if truncateByLines then List.intercalate (jstr "\n") (sliceLast maxLines lines)
    else afterBytes
  else rawText

/-- Decimal rendering of a natural number, as string interpolation renders
the counts inside the truncation notice. -/
def natStr (n : Nat) : JStr := jstr (toString n)

/-- Model of `(num / den).toFixed(1)` on the exact rational value (the
floating-point rounding of `Number.prototype.toFixed` is outside scope). -/
def toFixed1 (num den : Nat) : JStr :=
  let t := (num * 10 + den / 2) / den
  natStr (t / 10) ++ jstr "." ++ natStr (t % 10)

/-- Lines 98-102 of src/utils.ts: `formatBytes`. -/
def formatBytes (bytes : Nat) : JStr :=
  if bytes < 1024 then natStr bytes ++ jstr "B"
  else if bytes < 1024 * 1024 then toFixed1 bytes 1024 ++ jstr "KB"
  else toFixed1 bytes (1024 * 1024) ++ jstr "MB"

/-- Line 70 of src/utils.ts: the truncation-notice suffix. -/
def truncNotice (totalLines maxLines totalBytes maxBytes : Nat) (tempFile : JStr) : JStr :=
  jstr "\n\n[Output truncated: " ++ natStr (min totalLines maxLines) ++ jstr " of "
    ++ natStr totalLines ++ jstr " lines (" ++ formatBytes (min totalBytes maxBytes)
    ++ jstr " of " ++ formatBytes totalBytes ++ jstr "). Full output: " ++ tempFile ++ jstr "]"

/-- Lines 29-88 of src/utils.ts: `formatToolOutput`.  `tempPath` is the path
that `writeTempFile(rawText)` returns when the truncating branch runs; the
file write itself is an effect outside the state the claims concern. -/
def formatToolOutput (result : McpToolResult) (options : FormatOptions) (tempPath : JStr) :
    FormattedOutput :=
  let maxBytes := options.maxBytes.getD 51200
  let maxLines := options.maxLines.getD 2000
  let rawText := rawTextOf result
  let lines := splitNl rawText
  let totalLines := lines.length
  let totalBytes := byteLength rawText
  let truncateByLines := totalLines > maxLines
  let truncateByBytes := totalBytes > maxBytes
  if truncateByLines ∨ truncateByBytes then
    let contentText := formatContentText maxBytes maxLines rawText
    let outputText := contentText ++ truncNotice totalLines maxLines totalBytes maxBytes tempPath
    { text := outputText
      details :=
        { truncated := true, totalLines, totalBytes
          outputLines := (splitNl outputText).length
          outputBytes := byteLength outputText
          tempFile := some tempPath } }
  else
    { text := rawText
      details :=
        { truncated := false, totalLines, totalBytes
          outputLines := (splitNl rawText).length
          outputBytes := byteLength rawText
          tempFile := none } }

/-- The result record of `truncateHead`. -/
structure TruncateHeadResult where
  content : JStr
  truncated : Bool
  outputLines : Nat
  outputBytes : Nat
  totalLines : Nat
  totalBytes : Nat
  firstLineExceedsLimit : Bool
  deriving DecidableEq, Repr

/-- Lines 113-171 of src/utils.ts: `truncateHead`.  The first-line check is
`lines[0] && Buffer.byteLength(lines[0]) > maxBytes` — a truthy (nonempty)
first line whose byte length exceeds the budget — and in that branch the
content is `lines[0].slice(0, maxBytes)`, a slice by UTF-16 code units,
followed by the literal marker. -/
def truncateHead (text : JStr) (options : FormatOptions) : TruncateHeadResult :=
  let maxBytes := options.maxBytes.getD 51200
  let maxLines := options.maxLines.getD 2000
  let totalBytes := byteLength text
  let lines := splitNl text
  let totalLines := lines.length
  let l0 := lines.headD []
  if l0 ≠ [] ∧ byteLength l0 > maxBytes then
    let content := l0.take maxBytes ++ jstr "... [truncated]"
    { content, truncated := true
      outputLines := (splitNl content).length, outputBytes := byteLength content
      totalLines, totalBytes, firstLineExceedsLimit := true }
  else if totalLines > maxLines ∨ totalBytes > maxBytes then
    let c1 :=
      if totalLines > maxLines then List.intercalate (jstr "\n") (sliceLast maxLines lines)
      else text
    let contentBytes := byteLength c1
    let c2 :=
      if contentBytes > maxBytes then
        let dec := utf8Decode (sliceLast maxBytes (utf8Encode c1))
        match idxOfNl dec with
        | some i => if i > 0 then dec.drop (i + 1) else dec
        | none => dec
      else c1
    { content := c2, truncated := true
      outputLines := (splitNl c2).length, outputBytes := byteLength c2
      totalLines, totalBytes, firstLineExceedsLimit := false }
  else
    { content := text, truncated := false
      outputLines := (splitNl text).length, outputBytes := byteLength text
      totalLines, totalBytes, firstLineExceedsLimit := false }

/-! ### The Session (src/client.ts)

`MiniMaxMcpClient` is embedded as an explicit state machine.  The mutable
fields of the class become the fields of `ClientState`; each handler or
method of the class becomes a state-transition function.  Promise
settlements are recorded in `settled` (a JS promise settles at most once —
`settleOnce`); the timers armed by `sendRequest` are modelled by the
`timerFire` transition, which is exactly the body of the `setTimeout`
callback of lines 169-172. -/

/-- Errors a request promise can be rejected with, and connect failures. -/
inductive ClientError where
  /-- Line 171: `MCP request timeout after {ms}ms`. -/
  | timeout (ms : Nat)
  /-- The `error` event payload forwarded by `handleProcessError` (line 66). -/
  | processError (msg : String)
  /-- Line 157: `MCP process not connected`. -/
  | notConnected
  /-- Line 181: the `stdin.write` call threw. -/
  | writeFailed
  /-- Line 76: `MCP process startup timeout`. -/
  | startupTimeout
  /-- Line 102: `MCP initialize failed: ...`. -/
  | initializeFailed (msg : String)
  deriving DecidableEq, Repr

/-- Model of the `error` member of `JsonRpcResponse`. -/
structure JsonRpcError where
  code : Int
  message : String
  deriving DecidableEq, Repr

/-- Model of the `JsonRpcResponse` interface (src/types.ts).  Ids the client
generates are numbers, so a string id from the wire can never match a
pending key and behaves exactly like an unknown id; the model therefore
carries numeric ids only. -/
structure JsonRpcResponse where
  id : Option Nat := none
  result : Option McpToolResult := none
  error : Option JsonRpcError := none
  deriving DecidableEq, Repr

/-- Parameters of an outgoing request, as built by the callers of
`sendRequest`.  Tool-call argument values are modelled as strings; the
client forwards them untouched. -/
inductive RequestParams where
  /-- The `initialize` handshake parameters (lines 92-99). -/
  | initializeParams (protocolVersion clientName clientVersion : String)
  /-- The `tools/call` parameters `{ name, arguments }` (lines 203-206). -/
  | toolCall (name : String) (arguments : List (String × String))
  deriving DecidableEq, Repr

/-- Model of the `JsonRpcRequest` interface. -/
structure JsonRpcRequest where
  jsonrpc : String
  id : Nat
  method : String
  params : RequestParams
  deriving DecidableEq, Repr

/-- How a pending request's promise was settled. -/
inductive Outcome where
  | resolved (resp : JsonRpcResponse)
  | rejected (err : ClientError)
  deriving DecidableEq, Repr

/-- Status of the promise stored in `initPromise`. -/
inductive ConnPromise where
  | pendingAttempt
  | fulfilled
  | rejected (e : ClientError)
  deriving DecidableEq, Repr

/-- The mutable fields of `MiniMaxMcpClient` (lines 27-32), plus `settled`,
the record of promise settlements observed by callers.  `processAlive`
stands for `this.process !== null` (with its stdio pipes). -/
structure ClientState where
  processAlive : Bool := false
  requestId : Nat := 0
  pending : List Nat := []
  buffer : String := ""
  initialized : Bool := false
  initPromise : Option ConnPromise := none
  settled : List (Nat × Outcome) := []
  deriving DecidableEq, Repr

/-- The state of a freshly constructed client. -/
def initState : ClientState := {}

/-- Settle promise `id` with outcome `o`; a promise that is already settled
stays as it is (JS promises settle at most once). -/
def settleOnce (settled : List (Nat × Outcome)) (id : Nat) (o : Outcome) :
    List (Nat × Outcome) :=
  if (settled.lookup id).isSome then settled else settled ++ [(id, o)]

/-- Lines 146-153: `cleanup` — reset `initialized`, drop `initPromise`, kill
and release the process.  It does not touch `buffer`, `pending`,
`requestId` or any already-settled promise. -/
def cleanup (s : ClientState) : ClientState :=
  { s with initialized := false, initPromise := none, processAlive := false }

/-- Lines 67-72: the `exit` handler — log when the code is non-zero and
non-null, then `cleanup()`.  Pending requests are not rejected here. -/
def exitHandler (_code : Option Int) (s : ClientState) : ClientState :=
  cleanup s

/-- Lines 138-144: `handleProcessError` — reject every pending request with
the error, clear the pending map, then `cleanup()`. -/
def handleProcessError (err : ClientError) (s : ClientState) : ClientState :=
  cleanup
    { s with
      pending := []
      settled := s.pending.foldl (fun acc id => settleOnce acc id (.rejected err)) s.settled }

/-- Lines 129-136: `handleMessage` — a response is routed solely by its id;
when the id is non-null and has a pending record, the record is removed,
its timer cleared (removal of the record is what disarms it in this model)
and its promise resolved; otherwise nothing happens. -/
def handleMessage (msg : JsonRpcResponse) (s : ClientState) : ClientState :=
  match msg.id with
  | some i =>
    if i ∈ s.pending then
      { s with
        pending := s.pending.erase i
        settled := settleOnce s.settled i (.resolved msg) }
    else s
  | none => s

/-- Lines 169-172: the body of the timeout armed for a request — delete the
pending record and reject the caller's promise with the timeout error. -/
def timerFire (ms : Nat) (id : Nat) (s : ClientState) : ClientState :=
  { s with
    pending := s.pending.erase id
    settled := settleOnce s.settled id (.rejected (.timeout ms)) }

/-- Lines 155-184: `sendRequest`.  Throws (state unchanged, no request) when
the process is not connected; otherwise allocates id `++this.requestId`,
registers the pending record and writes the request.  `writeOk = false`
models the `stdin.write` call throwing, in which case the record is removed
again and the promise rejected (lines 178-182).  The built request is
returned alongside. -/
def sendRequest (method : String) (params : RequestParams) (writeOk : Bool)
    (s : ClientState) : ClientState × Option JsonRpcRequest :=
  if s.processAlive then
    let id := s.requestId + 1
    let req : JsonRpcRequest := { jsonrpc := "2.0", id, method, params }
    let s1 := { s with requestId := id, pending := s.pending ++ [id] }
    if writeOk then (s1, some req)
    else
      ({ s1 with
          pending := s1.pending.erase id
          settled := settleOnce s1.settled id (.rejected .writeFailed) }, some req)
  else (s, none)

/-- What `connect()` returns to its caller. -/
inductive ConnectResult where
  /-- Line 37: already initialized, return immediately. -/
  | alreadyInitialized
  /-- Line 38: an attempt exists; its promise (in whatever state) is returned. -/
  | existingAttempt (p : ConnPromise)
  /-- Lines 40-41: a fresh `doConnect()` is started and its promise stored. -/
  | startedNew
  deriving DecidableEq, Repr

/-- Lines 36-42: `connect` — idempotent entry point. -/
def connect (s : ClientState) : ClientState × ConnectResult :=
  if s.initialized then (s, .alreadyInitialized)
  else
    match s.initPromise with
    | some p => (s, .existingAttempt p)
    | none => ({ s with initPromise := some .pendingAttempt }, .startedNew)

/-- Line 53: `this.process = spawn(...)` inside `doConnect`. -/
def spawned (s : ClientState) : ClientState :=
  { s with processAlive := true }

/-- Lines 87-88: `doConnect` finishing — the handshake succeeded, so
`initialized` is set and the stored promise fulfils. -/
def connectSucceeded (s : ClientState) : ClientState :=
  { s with initialized := true, initPromise := some .fulfilled }

/-- The `doConnect` promise rejecting — startup timeout (line 76) or
handshake failure (line 102).  `doConnect` has no catch or finally and
`connect` stores its promise verbatim, so the only field that changes is
the stored promise's status: `initPromise` remains set, now rejected. -/
def connectFailed (e : ClientError) (s : ClientState) : ClientState :=
  { s with initPromise := some (.rejected e) }

/-- Lines 230-232: `disconnect` is exactly `cleanup`. -/
def disconnect (s : ClientState) : ClientState :=
  cleanup s

/-- Lines 200-213: the response handling of `callTool` — a protocol error is
surfaced as `Tool call failed: ...`, otherwise the `result` member is
returned verbatim, defaulting to `{ content: [] }` when absent. -/
def callToolHandle (resp : JsonRpcResponse) : Except String McpToolResult :=
  match resp.error with
  | some e => .error ("Tool call failed: " ++ e.message)
  | none => .ok (resp.result.getD { content := some [] })

/-- Lines 200-213: `callTool` — first `await this.connect()`, then issue the
`tools/call` request with `{ name, arguments }` via `sendRequest`, and
handle the eventual response `resp` (delivered asynchronously through
`handleMessage`) with `callToolHandle`. -/
def callTool (name : String) (args : List (String × String)) (writeOk : Bool)
    (resp : JsonRpcResponse) (s : ClientState) :
    ClientState × Option JsonRpcRequest × Except String McpToolResult :=
  let s1 := (connect s).1
  let sent := sendRequest "tools/call" (.toolCall name args) writeOk s1
  (sent.1, sent.2, callToolHandle resp)

/-- The observable events that drive the session state machine. -/
inductive Event where
  | send (method : String) (params : RequestParams) (writeOk : Bool)
  | recv (msg : JsonRpcResponse)
  | timer (ms : Nat) (id : Nat)
  | procError (err : ClientError)
  | procExit (code : Option Int)
  | disconnectCall
  | connectCall
  | spawnEvent
  | connectFailedEvent (e : ClientError)
  | connectSucceededEvent

/-- One step of the session state machine. -/
def step : Event → ClientState → ClientState
  | .send m p w, s => (sendRequest m p w s).1
  | .recv msg, s => handleMessage msg s
  | .timer ms id, s => timerFire ms id s
  | .procError e, s => handleProcessError e s
  | .procExit c, s => exitHandler c s
  | .disconnectCall, s => disconnect s
  | .connectCall, s => (connect s).1
  | .spawnEvent, s => spawned s
  | .connectFailedEvent e, s => connectFailed e s
  | .connectSucceededEvent, s => connectSucceeded s

/-- The request id issued by an event, when it issues one: `sendRequest`
allocates `requestId + 1` whenever the process handle is live. -/
def issuedId? (e : Event) (s : ClientState) : Option Nat :=
  match e with
  | .send _ _ _ => if s.processAlive then some (s.requestId + 1) else none
  | _ => none

/-- The request ids issued along a run of the machine, in order. -/
def issuedIds (s : ClientState) : List Event → List Nat
  | [] => []
  | e :: es => (issuedId? e s).toList ++ issuedIds (step e s) es

/-- The id-correlation invariant: pending keys are distinct and every
pending key is a positive id no greater than the current counter. -/
def InvC6 (s : ClientState) : Prop :=
  s.pending.Nodup ∧ ∀ id ∈ s.pending, 0 < id ∧ id ≤ s.requestId

instance decInvC6 (s : ClientState) : Decidable (InvC6 s) :=
  inferInstanceAs (Decidable (_ ∧ _))

/-! ### Concrete instances used by counterexamples and witnesses -/

/-- A tool result with a single text block of three 8-byte lines. -/
def c1Result : McpToolResult :=
  { content := some [{ type := jstr "text", text := some (jstr "aaaaaaaa\nbbbbbbbb\ncccccccc") }] }

/-- Budgets both far below the text of `c1Result`. -/
def c1Options : FormatOptions := { maxBytes := some 5, maxLines := some 2 }

/-- A ready session with two pending requests (ids 1 and 2). -/
def c2State : ClientState :=
  { processAlive := true, requestId := 2, pending := [1, 2], initialized := true,
    initPromise := some .fulfilled }

/-- A ready session with one pending request. -/
def c3State : ClientState :=
  { processAlive := true, requestId := 1, pending := [1], initialized := true,
    initPromise := some .fulfilled }

/-- A late response carrying the id of the timed-out request of `c3State`. -/
def c3Resp : JsonRpcResponse := { id := some 1 }

/-- A ready session with leftover stream data in the input buffer and one
pending request. -/
def c5State : ClientState :=
  { processAlive := true, requestId := 1, pending := [1], buffer := "leftover",
    initialized := true, initPromise := some .fulfilled }

/-- A ready session used to exercise the id-correlation invariant. -/
def c6State : ClientState :=
  { processAlive := true, requestId := 2, pending := [1, 2], initialized := true,
    initPromise := some .fulfilled }

/-- A connected session about to issue its first request. -/
def c7State : ClientState :=
  { processAlive := true, initialized := true, initPromise := some .fulfilled }

/-- A response carrying a protocol-level error. -/
def c7Resp : JsonRpcResponse := { error := some { code := -32000, message := "upstream" } }

/-- Formatter options with a 4-byte budget. -/
def c8Options : FormatOptions := { maxBytes := some 4 }

/-- A single line of four U+00E9 code units: 4 UTF-16 code units, 8 UTF-8
bytes. -/
def c8Line : JStr := [233, 233, 233, 233]

/-- A small, within-budget tool result. -/
def c9Result : McpToolResult :=
  { content := some [{ type := jstr "text", text := some (jstr "ok\nfine") }] }

/-- A tool result whose only textual block is the empty string. -/
def c10Result : McpToolResult :=
  { content := some [{ type := jstr "text", text := some [] }] }

/-! ### Helper lemmas -/

theorem lookup_append_of_none {l₁ l₂ : List (Nat × Outcome)} {id : Nat}
    (h : l₁.lookup id = none) : (l₁ ++ l₂).lookup id = l₂.lookup id := by
  induction l₁ with
  | nil => rfl
  | cons kv l ih =>
    obtain ⟨k, v⟩ := kv
    by_cases hk : id = k
    · simp [List.lookup, hk] at h
    · simp only [List.lookup, List.cons_append] at h ⊢
      rw [beq_eq_false_iff_ne.mpr hk] at h ⊢
      exact ih h

theorem lookup_append_of_some {l₁ l₂ : List (Nat × Outcome)} {id : Nat} {v : Outcome}
    (h : l₁.lookup id = some v) : (l₁ ++ l₂).lookup id = some v := by
  induction l₁ with
  | nil => simp [List.lookup] at h
  | cons kv l ih =>
    obtain ⟨k, w⟩ := kv
    by_cases hk : id = k
    · simp only [List.lookup, List.cons_append, beq_iff_eq] at h ⊢
      simpa [hk] using h
    · simp only [List.lookup, List.cons_append] at h ⊢
      rw [beq_eq_false_iff_ne.mpr hk] at h ⊢
      exact ih h

theorem lookup_settleOnce_self {acc : List (Nat × Outcome)} {id : Nat} (o : Outcome)
    (h : acc.lookup id = none) : (settleOnce acc id o).lookup id = some o := by
  rw [settleOnce, if_neg (by simp [h])]
  rw [lookup_append_of_none h]
  simp [List.lookup]

theorem lookup_settleOnce_some {acc : List (Nat × Outcome)} {j id : Nat} {o : Outcome}
    {v : Outcome} (h : acc.lookup id = some v) :
    (settleOnce acc j o).lookup id = some v := by
  rw [settleOnce]
  split
  · exact h
  · exact lookup_append_of_some h

theorem lookup_settleOnce_ne {acc : List (Nat × Outcome)} {j id : Nat} (o : Outcome)
    (hne : id ≠ j) : (settleOnce acc j o).lookup id = acc.lookup id := by
  rw [settleOnce]
  split
  · rfl
  · cases h : acc.lookup id with
    | none => rw [lookup_append_of_none h]; simp [List.lookup, beq_eq_false_iff_ne.mpr hne]
    | some v => exact lookup_append_of_some h

/-- Folding rejections over the pending list never unsettles a promise. -/
theorem lookup_foldl_reject_some (err : ClientError) (l : List Nat)
    {acc : List (Nat × Outcome)} {id : Nat} {v : Outcome} (h : acc.lookup id = some v) :
    (l.foldl (fun a j => settleOnce a j (.rejected err)) acc).lookup id = some v := by
  induction l generalizing acc with
  | nil => exact h
  | cons j l ih => exact ih (lookup_settleOnce_some h)

/-- Every id in the pending list ends up rejected by the fold of
`handleProcessError`. -/
theorem lookup_foldl_reject (err : ClientError) (l : List Nat)
    {acc : List (Nat × Outcome)} {id : Nat} (hmem : id ∈ l) (h : acc.lookup id = none) :
    (l.foldl (fun a j => settleOnce a j (.rejected err)) acc).lookup id
      = some (.rejected err) := by
  induction l generalizing acc with
  | nil => cases hmem
  | cons j l ih =>
    by_cases hji : id = j
    · subst hji
      exact lookup_foldl_reject_some err l (lookup_settleOnce_self _ h)
    · rcases List.mem_cons.mp hmem with h1 | h2
      · exact absurd h1 hji
      · exact ih h2 (by rw [lookup_settleOnce_ne _ hji]; exact h)

/-- The request-id counter never decreases. -/
theorem requestId_mono (e : Event) (s : ClientState) :
    s.requestId ≤ (step e s).requestId := by
  cases e with
  | send m p w =>
    simp only [step, sendRequest]
    split
    · split <;> simp
    · exact le_refl _
  | recv msg =>
    simp only [step, handleMessage]
    cases msg.id with
    | some i => dsimp only; split <;> simp
    | none => simp
  | timer ms id => simp [step, timerFire]
  | procError e => simp [step, handleProcessError, cleanup]
  | procExit c => simp [step, exitHandler, cleanup]
  | disconnectCall => simp [step, disconnect, cleanup]
  | connectCall =>
    simp only [step, connect]
    split
    · simp
    · split <;> simp
  | spawnEvent => simp [step, spawned]
  | connectFailedEvent e => simp [step, connectFailed]
  | connectSucceededEvent => simp [step, connectSucceeded]

/-- Ids issued later in a run are strictly above the current counter. -/
theorem issuedIds_gt (es : List Event) :
    ∀ (s : ClientState) (i : Nat), i ∈ issuedIds s es → s.requestId < i := by
  induction es with
  | nil => intro s i h; simp [issuedIds] at h
  | cons e es ih =>
    intro s i h
    rcases List.mem_append.mp h with h1 | h2
    · cases e with
      | send m p w =>
        simp only [issuedId?] at h1
        split at h1
        · simp at h1; omega
        · simp at h1
      | recv msg => simp [issuedId?] at h1
      | timer ms id => simp [issuedId?] at h1
      | procError e => simp [issuedId?] at h1
      | procExit c => simp [issuedId?] at h1
      | disconnectCall => simp [issuedId?] at h1
      | connectCall => simp [issuedId?] at h1
      | spawnEvent => simp [issuedId?] at h1
      | connectFailedEvent e => simp [issuedId?] at h1
      | connectSucceededEvent => simp [issuedId?] at h1
    · exact lt_of_le_of_lt (requestId_mono e s) (ih (step e s) i h2)

/-- When an event issues an id, the counter steps up to exactly that id. -/
theorem issuedId_step (e : Event) (s : ClientState) {i : Nat}
    (h : issuedId? e s = some i) : i = s.requestId + 1 ∧ (step e s).requestId = i := by
  cases e with
  | send m p w =>
    simp only [issuedId?] at h
    split at h
    · rename_i halive
      simp at h
      subst h
      refine ⟨rfl, ?_⟩
      simp only [step, sendRequest, if_pos halive]
      split <;> rfl
    · simp at h
  | recv msg => simp [issuedId?] at h
  | timer ms id => simp [issuedId?] at h
  | procError e => simp [issuedId?] at h
  | procExit c => simp [issuedId?] at h
  | disconnectCall => simp [issuedId?] at h
  | connectCall => simp [issuedId?] at h
  | spawnEvent => simp [issuedId?] at h
  | connectFailedEvent e => simp [issuedId?] at h
  | connectSucceededEvent => simp [issuedId?] at h

/-- Along any run, the issued request ids are strictly increasing. -/
theorem issuedIds_pairwise (es : List Event) :
    ∀ s : ClientState, (issuedIds s es).Pairwise (· < ·) := by
  induction es with
  | nil => intro s; simp [issuedIds]
  | cons e es ih =>
    intro s
    simp only [issuedIds]
    cases he : issuedId? e s with
    | none => simpa using ih (step e s)
    | some i =>
      simp only [Option.toList, List.cons_append, List.nil_append, List.pairwise_cons]
      refine ⟨fun j hj => ?_, ih (step e s)⟩
      obtain ⟨-, hstep⟩ := issuedId_step e s he
      have := issuedIds_gt es (step e s) j hj
      omega

/-- Ids are positive: every issued id is above the counter it was drawn
from. -/
theorem issuedIds_pos (es : List Event) (s : ClientState) :
    ∀ i ∈ issuedIds s es, 0 < i := by
  intro i hi
  have := issuedIds_gt es s i hi
  omega

/-- A freshly allocated id is not already pending. -/
theorem fresh_not_pending {s : ClientState} (h : InvC6 s) :
    s.requestId + 1 ∉ s.pending := by
  intro hmem
  have := (h.2 _ hmem).2
  omega

/-- The id-correlation invariant is preserved by every event. -/
theorem invC6_step (e : Event) (s : ClientState) (h : InvC6 s) : InvC6 (step e s) := by
  obtain ⟨hnd, hbound⟩ := h
  cases e with
  | send m p w =>
    simp only [step, sendRequest]
    split
    · have hfresh : s.requestId + 1 ∉ s.pending := fresh_not_pending ⟨hnd, hbound⟩
      split
      · dsimp only
        refine ⟨?_, ?_⟩
        · simpa [List.nodup_append, hfresh] using hnd
        · intro id hid
          rcases List.mem_append.mp hid with h1 | h2
          · have := hbound id h1
            show 0 < id ∧ id ≤ s.requestId + 1
            omega
          · simp at h2
            show 0 < id ∧ id ≤ s.requestId + 1
            omega
      · dsimp only
        rw [List.erase_append_right _ hfresh, List.erase_cons_head, List.append_nil]
        refine ⟨hnd, fun id hid => ?_⟩
        have := hbound id hid
        show 0 < id ∧ id ≤ s.requestId + 1
        omega
    · exact ⟨hnd, hbound⟩
  | recv msg =>
    simp only [step, handleMessage]
    cases msg.id with
    | some i =>
      dsimp only
      split
      · exact ⟨hnd.erase i, fun id hid => hbound id (List.mem_of_mem_erase hid)⟩
      · exact ⟨hnd, hbound⟩
    | none => exact ⟨hnd, hbound⟩
  | timer ms id =>
    exact ⟨hnd.erase id, fun j hj => hbound j (List.mem_of_mem_erase hj)⟩
  | procError e => simp [step, handleProcessError, cleanup, InvC6]
  | procExit c => exact ⟨hnd, hbound⟩
  | disconnectCall => exact ⟨hnd, hbound⟩
  | connectCall =>
    simp only [step, connect]
    split
    · exact ⟨hnd, hbound⟩
    · split <;> exact ⟨hnd, hbound⟩
  | spawnEvent => exact ⟨hnd, hbound⟩
  | connectFailedEvent e => exact ⟨hnd, hbound⟩
  | connectSucceededEvent => exact ⟨hnd, hbound⟩

/-- Responses with a null id do nothing. -/
theorem handleMessage_null_id (msg : JsonRpcResponse) (s : ClientState)
    (h : msg.id = none) : handleMessage msg s = s := by
  simp [handleMessage, h]

/-- Responses whose id has no pending record do nothing. -/
theorem handleMessage_unknown_id (msg : JsonRpcResponse) (s : ClientState) (i : Nat)
    (h : msg.id = some i) (hnp : i ∉ s.pending) : handleMessage msg s = s := by
  simp [handleMessage, h, hnp]

/-- A matching response removes exactly its pending record and resolves
exactly its promise. -/
theorem handleMessage_known_id (msg : JsonRpcResponse) (s : ClientState) (i : Nat)
    (h : msg.id = some i) (hp : i ∈ s.pending) :
    handleMessage msg s =
      { s with pending := s.pending.erase i
               settled := settleOnce s.settled i (.resolved msg) } := by
  simp [handleMessage, h, hp]

/-- An all-ASCII string has one byte per code unit. -/
theorem byteLength_ascii {l : JStr} (h : ∀ c ∈ l, c < 128) :
    byteLength l = l.length := by
  induction l with
  | nil => rfl
  | cons c l ih =>
    have hc : c < 128 := h c (List.mem_cons_self ..)
    simp only [byteLength, List.map_cons, List.sum_cons] at ih ⊢
    rw [ih fun d hd => h d (List.mem_cons_of_mem _ hd)]
    simp only [utf8Width, if_pos hc, List.length_cons]
    omega

theorem byteLength_take_ascii {l : JStr} (n : Nat) (h : ∀ c ∈ l, c < 128) :
    byteLength (l.take n) ≤ n := by
  rw [byteLength_ascii fun c hc => h c (List.mem_of_mem_take hc)]
  exact (List.length_take ..).le.trans (min_le_left ..)

/-! ### The claims -/

/-- C1: the claim says that when both the line and the byte budget are
exceeded, byte-truncation is applied first and line-truncation is then
re-applied to the byte-truncated result, so the content before the
truncation notice is within both budgets.  The code instead recomputes the
line-truncation from the split of the *original* text (utils.ts:64),
overwriting the byte-truncated text of utils.ts:57-60; at a result of three
8-byte lines with maxBytes = 5, maxLines = 2, the content portion is the
last two original lines — 17 bytes, over the 5-byte budget — while the
appended notice even reports "5B of 26B" kept. -/
theorem c1_formatter_both_budgets_failing_input :
    (splitNl (rawTextOf c1Result)).length = 3 ∧
    byteLength (rawTextOf c1Result) = 26 ∧
    formatContentText 5 2 (rawTextOf c1Result) = jstr "bbbbbbbb\ncccccccc" ∧
    byteLength (formatContentText 5 2 (rawTextOf c1Result)) = 17 ∧
    ¬ byteLength (formatContentText 5 2 (rawTextOf c1Result)) ≤ 5 ∧
    (formatToolOutput c1Result c1Options (jstr "/tmp/full.txt")).text
      = formatContentText 5 2 (rawTextOf c1Result)
        ++ truncNotice 3 2 26 5 (jstr "/tmp/full.txt") ∧
    (formatToolOutput c1Result c1Options (jstr "/tmp/full.txt")).details.truncated = true := by
  decide

/-- C2 counterexample: the claim says a non-zero exit rejects every pending
request and clears the pending map.  After the subprocess of `c2State`
exits with code 1 while requests 1 and 2 are pending, the pending map still
holds both ids and no promise has been settled: the exit handler only runs
`cleanup`. -/
theorem c2_exit_does_not_reject_pending :
    (exitHandler (some 1) c2State).pending = [1, 2] ∧
    (exitHandler (some 1) c2State).settled = [] ∧
    (exitHandler (some 1) c2State).initialized = false := by
  decide

/-- C2 (amended): on a subprocess `error` event every currently pending
request is rejected with that error, the pending map is cleared and the
session reports not-ready; on subprocess exit (any code) only `cleanup`
runs — the session reports not-ready and the process handle is released,
but pending requests are left untouched, to fail later via their own
timeouts. -/
theorem c2_error_rejects_exit_preserves (err : ClientError) (code : Option Int)
    (s : ClientState) (id : Nat) :
    (handleProcessError err s).pending = [] ∧
    (handleProcessError err s).initialized = false ∧
    (handleProcessError err s).processAlive = false ∧
    (id ∈ s.pending → s.settled.lookup id = none →
      (handleProcessError err s).settled.lookup id = some (.rejected err)) ∧
    (exitHandler code s).initialized = false ∧
    (exitHandler code s).processAlive = false ∧
    (exitHandler code s).pending = s.pending ∧
    (exitHandler code s).settled = s.settled := by
  refine ⟨rfl, rfl, rfl, ?_, rfl, rfl, rfl, rfl⟩
  intro hmem hnone
  show (s.pending.foldl (fun acc id => settleOnce acc id (.rejected err)) s.settled).lookup id
    = some (.rejected err)
  exact lookup_foldl_reject err _ hmem hnone

/-- C2 witness: on `c2State`, a process error rejects pending request 1. -/
theorem c2_error_rejects_exit_preserves_witness :
    1 ∈ c2State.pending ∧
    (handleProcessError (.processError "boom") c2State).settled.lookup 1
      = some (.rejected (.processError "boom")) :=
  ⟨by decide,
   (c2_error_rejects_exit_preserves (.processError "boom") (some 1) c2State 1).2.2.2.1
     (by decide) (by decide)⟩

/-- C3: on timeout expiry the pending record of the request is removed and
its caller's promise is rejected with the timeout error; a response for
that id arriving afterwards is ignored as unmatched — the state does not
change, so nothing is re-settled. -/
theorem c3_timeout_then_late_response (ms id : Nat) (s : ClientState)
    (resp : JsonRpcResponse) (hnd : s.pending.Nodup)
    (hl : s.settled.lookup id = none) (hr : resp.id = some id) :
    id ∉ (timerFire ms id s).pending ∧
    (timerFire ms id s).settled.lookup id = some (.rejected (.timeout ms)) ∧
    handleMessage resp (timerFire ms id s) = timerFire ms id s := by
  have h1 : id ∉ (timerFire ms id s).pending := by
    show id ∉ s.pending.erase id
    exact hnd.not_mem_erase
  refine ⟨h1, ?_, handleMessage_unknown_id resp _ id hr h1⟩
  show (settleOnce s.settled id (.rejected (.timeout ms))).lookup id
    = some (.rejected (.timeout ms))
  exact lookup_settleOnce_self _ hl

/-- C3 witness: the 60-second timeout of request 1 on `c3State`, followed by
a late response for id 1. -/
theorem c3_timeout_then_late_response_witness :
    1 ∉ (timerFire 60000 1 c3State).pending ∧
    (timerFire 60000 1 c3State).settled.lookup 1 = some (.rejected (.timeout 60000)) ∧
    handleMessage c3Resp (timerFire 60000 1 c3State) = timerFire 60000 1 c3State :=
  c3_timeout_then_late_response 60000 1 c3State c3Resp (by decide) (by decide) (by decide)

/-- C4 counterexample: the claim says a failed connect attempt returns the
session to Unconnected so the next connect() starts fresh.  After the
startup timeout fails the first attempt on a fresh client, `initPromise`
still holds the rejected attempt and the next connect() returns that stale
failure instead of starting a new one. -/
theorem c4_stale_failed_connect_returned :
    (connectFailed .startupTimeout (connect initState).1).initPromise
      = some (.rejected .startupTimeout) ∧
    (connect (connectFailed .startupTimeout (connect initState).1)).2
      = .existingAttempt (.rejected .startupTimeout) ∧
    (connect (connectFailed .startupTimeout (connect initState).1)).2 ≠ .startedNew := by
  decide

/-- C4 (amended): connect() returns immediately when initialized, and while
an attempt exists it returns that same attempt without touching the state
(so no duplicate subprocess is spawned); but after the attempt fails with a
startup-timeout or handshake error, `initPromise` remains set to the
rejected outcome — `doConnect` has no catch — so a subsequent connect()
returns the stale failure.  Only `cleanup` (process error, exit or
disconnect) returns the session to Unconnected, after which connect()
starts a fresh attempt. -/
theorem c4_connect_idempotent_stale_failure (s : ClientState) (e : ClientError)
    (p : ConnPromise) :
    (s.initialized = true → connect s = (s, .alreadyInitialized)) ∧
    (s.initialized = false → s.initPromise = some p → connect s = (s, .existingAttempt p)) ∧
    (connectFailed e s).initPromise = some (.rejected e) ∧
    (s.initialized = false →
      (connect (connectFailed e s)).2 = .existingAttempt (.rejected e)) ∧
    (cleanup s).initialized = false ∧
    (cleanup s).initPromise = none ∧
    (connect (cleanup s)).2 = .startedNew := by
  refine ⟨?_, ?_, rfl, ?_, rfl, rfl, rfl⟩
  · intro h; simp [connect, h]
  · intro h hp; simp [connect, h, hp]
  · intro h; simp [connect, connectFailed, h]

/-- C4 witness: after the first attempt on a fresh client fails with the
startup timeout, connect() hands back the stale rejected outcome. -/
theorem c4_connect_idempotent_stale_failure_witness :
    (connect (connectFailed .startupTimeout initState)).2
      = .existingAttempt (.rejected .startupTimeout) :=
  (c4_connect_idempotent_stale_failure initState .startupTimeout .pendingAttempt).2.2.2.1
    (by decide)

/-- C5 counterexample: the claim says disconnect() clears the input buffer
and rejects all pending requests.  On `c5State` it does neither: the buffer
and the pending map survive and no promise is settled. -/
theorem c5_disconnect_keeps_buffer_and_pending :
    (disconnect c5State).buffer = "leftover" ∧
    (disconnect c5State).buffer ≠ "" ∧
    (disconnect c5State).pending = [1] ∧
    (disconnect c5State).settled = [] := by
  decide

/-- C5 (amended): disconnect() is an idempotent teardown, safe to call
repeatedly and on a never-connected session; it kills the subprocess if
running and resets `initialized` and the connect attempt so the session
reports not-initialized — but it does not clear the input buffer, does not
reject pending requests and does not reset the id counter. -/
theorem c5_disconnect_idempotent_teardown (s : ClientState) :
    disconnect (disconnect s) = disconnect s ∧
    (disconnect s).initialized = false ∧
    (disconnect s).processAlive = false ∧
    (disconnect s).initPromise = none ∧
    (disconnect s).buffer = s.buffer ∧
    (disconnect s).pending = s.pending ∧
    (disconnect s).settled = s.settled ∧
    (disconnect s).requestId = s.requestId ∧
    disconnect initState = initState :=
  ⟨rfl, rfl, rfl, rfl, rfl, rfl, rfl, rfl, rfl⟩

/-- C6: request ids issued along any run are strictly increasing (hence
positive and never reused, across disconnect/reconnect too, since no event
resets the counter); the pending map always holds distinct in-range keys;
and a response is routed solely by id — null and unknown ids change
nothing, a matching id removes exactly its record and resolves exactly its
promise. -/
theorem c6_request_id_correlation :
    (∀ (s : ClientState) (es : List Event), (issuedIds s es).Pairwise (· < ·)) ∧
    (∀ (s : ClientState) (es : List Event), ∀ i ∈ issuedIds s es, 0 < i) ∧
    (∀ (e : Event) (s : ClientState), InvC6 s → InvC6 (step e s)) ∧
    (∀ s : ClientState, (cleanup s).requestId = s.requestId) ∧
    (∀ (msg : JsonRpcResponse) (s : ClientState), msg.id = none → handleMessage msg s = s) ∧
    (∀ (msg : JsonRpcResponse) (s : ClientState) (i : Nat),
      msg.id = some i → i ∉ s.pending → handleMessage msg s = s) ∧
    (∀ (msg : JsonRpcResponse) (s : ClientState) (i : Nat),
      msg.id = some i → i ∈ s.pending →
      handleMessage msg s =
        { s with pending := s.pending.erase i
                 settled := settleOnce s.settled i (.resolved msg) }) :=
  ⟨fun s es => issuedIds_pairwise es s,
   fun s es => issuedIds_pos es s,
   invC6_step,
   fun _ => rfl,
   handleMessage_null_id,
   handleMessage_unknown_id,
   handleMessage_known_id⟩

/-- C6 witness: the invariant holds on `c6State`, is preserved by a send,
and a response with unknown id 5 is ignored there. -/
theorem c6_request_id_correlation_witness :
    InvC6 c6State ∧
    InvC6 (step (.send "tools/list" (.toolCall "x" []) true) c6State) ∧
    handleMessage { id := some 5 } c6State = c6State :=
  ⟨by decide,
   c6_request_id_correlation.2.2.1 (.send "tools/list" (.toolCall "x" []) true) c6State
     (by decide),
   c6_request_id_correlation.2.2.2.2.2.1 { id := some 5 } c6State 5 rfl (by decide)⟩

/-- C7: callTool connects first, then issues a `tools/call` request with
`{ name, arguments }`; a protocol error in the response surfaces as a
failure carrying the upstream message, otherwise the `result` member is
returned verbatim (an empty content list when absent) — and the handler can
never return both a result and an error. -/
theorem c7_callTool_contract (name : String) (args : List (String × String))
    (writeOk : Bool) (resp : JsonRpcResponse) (s : ClientState) :
    ((connect s).1.processAlive = true →
      (callTool name args writeOk resp s).2.1
        = some { jsonrpc := "2.0", id := (connect s).1.requestId + 1,
                 method := "tools/call", params := .toolCall name args }) ∧
    (callTool name args writeOk resp s).1
      = (sendRequest "tools/call" (.toolCall name args) writeOk (connect s).1).1 ∧
    (callTool name args writeOk resp s).2.2 = callToolHandle resp ∧
    (∀ e, resp.error = some e →
      callToolHandle resp = .error ("Tool call failed: " ++ e.message)) ∧
    (∀ r, resp.error = none → resp.result = some r → callToolHandle resp = .ok r) ∧
    (resp.error = none → resp.result = none →
      callToolHandle resp = .ok { content := some [] }) ∧
    (∀ r e, callToolHandle resp = .ok r → callToolHandle resp ≠ .error e) := by
  refine ⟨?_, rfl, rfl, ?_, ?_, ?_, ?_⟩
  · intro h
    show (sendRequest "tools/call" (.toolCall name args) writeOk (connect s).1).2 = _
    rw [sendRequest, if_pos h]
    dsimp only
    split <;> rfl
  · intro e he; simp [callToolHandle, he]
  · intro r h1 h2; simp [callToolHandle, h1, h2]
  · intro h1 h2; simp [callToolHandle, h1, h2]
  · intro r e hok heq
    rw [hok] at heq
    exact Except.noConfusion heq

/-- C7 witness: a `web_search` tool call on `c7State` issues request id 1
with the given name and arguments, and an error response surfaces as a
failure carrying the upstream message. -/
theorem c7_callTool_contract_witness :
    (callTool "web_search" [("query", "hi")] true c7Resp c7State).2.1
      = some { jsonrpc := "2.0", id := 1, method := "tools/call",
               params := .toolCall "web_search" [("query", "hi")] } ∧
    callToolHandle c7Resp = .error ("Tool call failed: " ++ "upstream") :=
  ⟨(c7_callTool_contract "web_search" [("query", "hi")] true c7Resp c7State).1 (by decide),
   (c7_callTool_contract "web_search" [("query", "hi")] true c7Resp c7State).2.2.2.1
     { code := -32000, message := "upstream" } (by decide)⟩

/-- C8 counterexample: the claim says the over-budget first line is
truncated to the byte budget.  A first line of four U+00E9 characters
(8 UTF-8 bytes) with maxBytes = 4 keeps all four characters — 8 bytes plus
the 15-byte marker — because `lines[0].slice(0, maxBytes)` slices UTF-16
code units, not bytes. -/
theorem c8_first_line_code_unit_slice :
    byteLength c8Line = 8 ∧
    (truncateHead c8Line c8Options).firstLineExceedsLimit = true ∧
    (truncateHead c8Line c8Options).content = c8Line ++ jstr "... [truncated]" ∧
    byteLength (truncateHead c8Line c8Options).content
      = 8 + byteLength (jstr "... [truncated]") ∧
    ¬ byteLength (truncateHead c8Line c8Options).content
        ≤ 4 + byteLength (jstr "... [truncated]") := by
  decide

/-- C8 (amended): when the nonempty first line alone exceeds the byte
budget, truncateHead keeps its first maxBytes UTF-16 code units plus the
marker, marks the result truncated and flags firstLineExceedsLimit; the
kept slice is within the byte budget whenever the line is ASCII — in
particular for the spec's all-ASCII 100,000-byte line with maxBytes =
51200. -/
theorem c8_first_line_truncation (text : JStr) (options : FormatOptions)
    (h0 : (splitNl text).headD [] ≠ [])
    (h1 : byteLength ((splitNl text).headD []) > options.maxBytes.getD 51200) :
    (truncateHead text options).content
      = ((splitNl text).headD []).take (options.maxBytes.getD 51200)
          ++ jstr "... [truncated]" ∧
    (truncateHead text options).truncated = true ∧
    (truncateHead text options).firstLineExceedsLimit = true ∧
    ((∀ c ∈ (splitNl text).headD [], c < 128) →
      byteLength (((splitNl text).headD []).take (options.maxBytes.getD 51200))
        ≤ options.maxBytes.getD 51200) := by
  unfold truncateHead
  dsimp only
  rw [if_pos ⟨h0, h1⟩]
  exact ⟨rfl, rfl, rfl, fun hascii => byteLength_take_ascii _ hascii⟩

/-- C8 witness: a 10-byte ASCII line with maxBytes = 4 keeps exactly its
first 4 code units, 4 bytes, plus the marker. -/
theorem c8_first_line_truncation_witness :
    (truncateHead (jstr "aaaaaaaaaa") c8Options).content
      = (jstr "aaaaaaaaaa").take 4 ++ jstr "... [truncated]" ∧
    (truncateHead (jstr "aaaaaaaaaa") c8Options).firstLineExceedsLimit = true ∧
    byteLength ((jstr "aaaaaaaaaa").take 4) ≤ 4 :=
  ⟨(c8_first_line_truncation (jstr "aaaaaaaaaa") c8Options (by decide) (by decide)).1,
   (c8_first_line_truncation (jstr "aaaaaaaaaa") c8Options (by decide) (by decide)).2.2.1,
   (c8_first_line_truncation (jstr "aaaaaaaaaa") c8Options (by decide) (by decide)).2.2.2
     (by decide)⟩

/-- C9: when the derived text is within both budgets, formatToolOutput
returns it unchanged, reports truncated = false and produces no temp
file. -/
theorem c9_within_budget_unchanged (result : McpToolResult) (options : FormatOptions)
    (tempPath : JStr)
    (hL : (splitNl (rawTextOf result)).length ≤ options.maxLines.getD 2000)
    (hB : byteLength (rawTextOf result) ≤ options.maxBytes.getD 51200) :
    (formatToolOutput result options tempPath).text = rawTextOf result ∧
    (formatToolOutput result options tempPath).details.truncated = false ∧
    (formatToolOutput result options tempPath).details.tempFile = none := by
  have hcond : ¬ ((splitNl (rawTextOf result)).length > options.maxLines.getD 2000 ∨
      byteLength (rawTextOf result) > options.maxBytes.getD 51200) := by
    push_neg
    exact ⟨hL, hB⟩
  unfold formatToolOutput
  dsimp only
  rw [if_neg hcond]
  exact ⟨rfl, rfl, rfl⟩

/-- C9 witness: a 2-line, 7-byte result under the default budgets. -/
theorem c9_within_budget_unchanged_witness :
    (formatToolOutput c9Result {} (jstr "/tmp/out.txt")).text = rawTextOf c9Result ∧
    (formatToolOutput c9Result {} (jstr "/tmp/out.txt")).details.truncated = false ∧
    (formatToolOutput c9Result {} (jstr "/tmp/out.txt")).details.tempFile = none :=
  c9_within_budget_unchanged c9Result {} (jstr "/tmp/out.txt") (by decide) (by decide)

/-- C10: whenever the textual blocks join to the empty string — also when a
textual block exists but is empty — the raw text that formatToolOutput
formats is the JSON structural dump of the whole result, not the empty
text. -/
theorem c10_empty_join_structural_dump (result : McpToolResult) (options : FormatOptions)
    (tempPath : JStr) (h : joinedText result = []) :
    rawTextOf result = jsonStringify result ∧
    (formatToolOutput result options tempPath).details.totalBytes
      = byteLength (jsonStringify result) := by
  have hraw : rawTextOf result = jsonStringify result := by rw [rawTextOf, if_pos h]
  refine ⟨hraw, ?_⟩
  unfold formatToolOutput
  dsimp only
  split
  · dsimp only; rw [hraw]
  · dsimp only; rw [hraw]

/-- C10 witness: a result whose single textual block is empty falls back to
the structural dump. -/
theorem c10_empty_join_structural_dump_witness :
    rawTextOf c10Result = jsonStringify c10Result ∧
    (formatToolOutput c10Result {} (jstr "/tmp/out2.txt")).details.totalBytes
      = byteLength (jsonStringify c10Result) :=
  c10_empty_join_structural_dump c10Result {} (jstr "/tmp/out2.txt") (by decide)

end Mcp
